import Mathlib

/-!
Verification of the download/buffer/merge engine of `yutto`
(`src/yutto/processor/downloader.py`), shallowly embedded in Lean 4.

Python integers are modelled by `Nat` (all quantities involved are byte
offsets, sizes and counts, non-negative at every call site) except where a
value can genuinely go negative (`total_size - 1` when `block_size` is
`None`), where `Int` is used.  A Python `assert` failure or builtin
exception is modelled by `Except.error`.
-/

namespace Yutto

/-- One element of Python `range(start, stop, step)` count for `step > 0`:
the number of produced indices is `ceil((stop - start) / step)`, which for
naturals (truncated subtraction) is `(stop - start + step - 1) / step`. -/
def pyRangeLen (start stop step : Nat) : Nat :=
  (stop - start + step - 1) / step

/-- `slice_blocks(start, total_size, block_size)` from
`yutto/processor/downloader.py`.  Returns the list of `(start, size)`
blocks; block sizes are `Option Int` because the `block_size = None`
branch computes `total_size - 1`, and the `total_size = None` branch
returns an unbounded block.  The Python `assert start <= total_size`
and the `range` step-zero `ValueError` become `Except.error`; so does
the (unreachable) `offset_list[-1]` on an empty list. -/
def slice_blocks (start : Nat) (total_size : Option Nat) (block_size : Option Nat) :
    Except String (List (Nat × Option Int)) :=
  match total_size with
  | none => .ok [(0, none)]
  | some T =>
    match block_size with
    | none => .ok [(0, some ((T : Int) - 1))]
    | some b =>
      if start ≤ T then
        if b = 0 then
          .error "ValueError: range arg 3 must not be zero"
        else
          let offset_list : List (Nat × Option Int) :=
            (List.range (pyRangeLen start T b)).map (fun k => (start + k * b, some (b : Int)))
          if (T - start) % b ≠ 0 then
            if offset_list = [] then
              .error "IndexError: list assignment index out of range"
            else
              .ok (offset_list.dropLast ++
                [(start + (T - start) / b * b,
                  some ((T - start - (T - start) / b * b : Nat) : Int))])
          else
            .ok offset_list
      else
        .error "AssertionError: start greater than total_size"

/-- The byte offsets a `(start, size)` block covers: `[start, start+size)`.
An unbounded block covers no statically known byte set. -/
def blockBytes (p : Nat × Option Int) : List Nat :=
  match p.2 with
  | some n => List.range' p.1 n.toNat
  | none => []

/-- All byte offsets covered by a block list, in block order. -/
def coveredBytes (l : List (Nat × Option Int)) : List Nat :=
  l.flatMap blockBytes

theorem coveredBytes_full_blocks (s b q : Nat) :
    coveredBytes ((List.range q).map (fun k => (s + k * b, some (b : Int)))) =
      List.range' s (q * b) := by
  induction q with
  | zero => simp [coveredBytes]
  | succ n ih =>
    rw [List.range_succ, List.map_append, coveredBytes, List.flatMap_append]
    rw [show ((List.range n).map (fun k => (s + k * b, some (b : Int)))).flatMap blockBytes =
      coveredBytes ((List.range n).map (fun k => (s + k * b, some (b : Int)))) from rfl, ih]
    simp only [List.map_cons, List.map_nil, List.flatMap_cons, List.flatMap_nil,
      List.append_nil]
    rw [show blockBytes (s + n * b, some (b : Int)) = List.range' (s + n * b) b by
      simp [blockBytes]]
    have h := List.range'_append s (n * b) b 1
    rw [one_mul] at h
    rw [h, Nat.succ_mul, Nat.add_comm (n * b) b]

theorem pyRangeLen_of_mod_eq_zero (s T b : Nat) (hb : 0 < b) (h : (T - s) % b = 0) :
    pyRangeLen s T b = (T - s) / b := by
  unfold pyRangeLen
  have hdm := Nat.div_add_mod (T - s) b
  rw [h, Nat.add_zero] at hdm
  apply Nat.div_eq_of_lt_le
  · calc (T - s) / b * b = b * ((T - s) / b) := Nat.mul_comm _ _
    _ = T - s := hdm
    _ ≤ T - s + b - 1 := by omega
  · have : ((T - s) / b + 1) * b = (T - s) / b * b + b := Nat.succ_mul _ _
    rw [this, Nat.mul_comm, hdm]
    omega

theorem pyRangeLen_of_mod_ne_zero (s T b : Nat) (hb : 0 < b) (h : (T - s) % b ≠ 0) :
    pyRangeLen s T b = (T - s) / b + 1 := by
  unfold pyRangeLen
  have hdm := Nat.div_add_mod (T - s) b
  have hlt : (T - s) % b < b := Nat.mod_lt _ hb
  apply Nat.div_eq_of_lt_le
  · have : ((T - s) / b + 1) * b = b * ((T - s) / b) + b := by
      rw [Nat.succ_mul, Nat.mul_comm]
    omega
  · have : ((T - s) / b + 1 + 1) * b = b * ((T - s) / b) + b + b := by
      rw [Nat.succ_mul, Nat.succ_mul, Nat.mul_comm]
    omega

theorem slice_blocks_of_mod_eq_zero (s T b : Nat) (hsT : s ≤ T) (hb : 0 < b)
    (h : (T - s) % b = 0) :
    slice_blocks s (some T) (some b) =
      .ok ((List.range ((T - s) / b)).map (fun k => (s + k * b, some (b : Int)))) := by
  simp only [slice_blocks, if_pos hsT, if_neg hb.ne',
    pyRangeLen_of_mod_eq_zero s T b hb h]
  rw [if_neg (by simp [h])]

theorem slice_blocks_of_mod_ne_zero (s T b : Nat) (hsT : s ≤ T) (hb : 0 < b)
    (h : (T - s) % b ≠ 0) :
    slice_blocks s (some T) (some b) =
      .ok (((List.range ((T - s) / b)).map (fun k => (s + k * b, some (b : Int)))) ++
        [(s + (T - s) / b * b, some (((T - s) % b : Nat) : Int))]) := by
  have hrem : T - s - (T - s) / b * b = (T - s) % b := by
    rw [Nat.mod_def, Nat.mul_comm]
  simp only [slice_blocks, if_pos hsT, if_neg hb.ne',
    pyRangeLen_of_mod_ne_zero s T b hb h, List.range_succ, List.map_append,
    List.map_cons, List.map_nil]
  rw [if_pos h, if_neg (by simp), List.dropLast_concat, hrem]

/-- C1: for every resume offset `r` and total size `T` with `r ≤ T` and every
block size `b > 0`, `slice_blocks r T b` succeeds with an ordered block list
whose concatenated byte ranges are exactly `[r, T)` (hence the blocks are
contiguous, non-overlapping and cover the range in order), whose last block
has size `(T - r) % b` when that remainder is nonzero and `b` otherwise, and
which is empty exactly in the degenerate case `r = T`. -/
theorem c1_slice_blocks_covers (r T b : Nat) (hrT : r ≤ T) (hb : 0 < b) :
    ∃ l, slice_blocks r (some T) (some b) = .ok l ∧
      coveredBytes l = List.range' r (T - r) ∧
      (∀ p ∈ l.getLast?,
        p.2 = some (((if (T - r) % b = 0 then b else (T - r) % b) : Nat) : Int)) ∧
      (l = [] ↔ r = T) := by
  by_cases h : (T - r) % b = 0
  · refine ⟨_, slice_blocks_of_mod_eq_zero r T b hrT hb h, ?_, ?_, ?_⟩
    · rw [coveredBytes_full_blocks, Nat.div_mul_cancel (Nat.dvd_of_mod_eq_zero h)]
    · intro p hp
      rcases Nat.eq_zero_or_pos ((T - r) / b) with hq | hq
      · simp [hq] at hp
      · obtain ⟨q, hq1⟩ : ∃ q, (T - r) / b = q + 1 := ⟨(T - r) / b - 1, by omega⟩
        rw [hq1, List.range_succ, List.map_append, List.map_cons, List.map_nil,
          List.getLast?_concat] at hp
        rw [Option.mem_some_iff] at hp
        rw [← hp, if_pos h]
    · constructor
      · intro hnil
        have hlen := congrArg List.length hnil
        simp only [List.length_map, List.length_range, List.length_nil] at hlen
        have hd := Nat.div_add_mod (T - r) b
        rw [h, hlen] at hd
        omega
      · intro hrT2
        subst hrT2
        simp
  · refine ⟨_, slice_blocks_of_mod_ne_zero r T b hrT hb h, ?_, ?_, ?_⟩
    · rw [coveredBytes, List.flatMap_append,
        show ((List.range ((T - r) / b)).map
          (fun k => (r + k * b, some (b : Int)))).flatMap blockBytes =
          coveredBytes ((List.range ((T - r) / b)).map
            (fun k => (r + k * b, some (b : Int)))) from rfl,
        coveredBytes_full_blocks]
      simp only [List.flatMap_cons, List.flatMap_nil, List.append_nil]
      rw [show blockBytes (r + (T - r) / b * b, some (((T - r) % b : Nat) : Int)) =
        List.range' (r + (T - r) / b * b) ((((T - r) % b : Nat) : Int)).toNat from rfl,
        Int.toNat_natCast]
      have happ := List.range'_append r ((T - r) / b * b) ((T - r) % b) 1
      rw [one_mul] at happ
      rw [happ]
      congr 1
      rw [Nat.add_comm, Nat.mul_comm]
      exact Nat.div_add_mod _ _
    · intro p hp
      rw [List.getLast?_concat, Option.mem_some_iff] at hp
      rw [← hp, if_neg h]
    · constructor
      · intro hnil
        exact absurd (congrArg List.length hnil) (by simp)
      · intro hrT2
        subst hrT2
        simp at h

/-- Witness for C1 at `r = 1`, `T = 6`, `b = 2`. -/
theorem c1_slice_blocks_covers_witness :
    (1 : Nat) ≤ 6 ∧ (0 : Nat) < 2 ∧
      ∃ l, slice_blocks 1 (some 6) (some 2) = .ok l ∧
        coveredBytes l = List.range' 1 (6 - 1) ∧
        (∀ p ∈ l.getLast?,
          p.2 = some (((if (6 - 1) % 2 = 0 then 2 else (6 - 1) % 2) : Nat) : Int)) ∧
        (l = [] ↔ 1 = 6) :=
  ⟨by omega, by omega, c1_slice_blocks_covers 1 6 2 (by omega) (by omega)⟩

/-- C4 counterexample: the claim says `slice_blocks` fails for every block
size, including a null one, whenever `r > T`.  But with `r = 5 > T = 3` and
a null block size the code returns a plan (the `block_size is None` branch
comes before the assertion), so the claim as stated is false. -/
theorem c4_null_block_size_no_failure :
    slice_blocks 5 (some 3) none = .ok [(0, some 2)] := rfl

/-- C4 (amended): with `r > T`, `slice_blocks r T b` fails with the
precondition assertion for every non-null block size `b`; with a null block
size it instead silently returns the plan `[(0, T - 1)]`. -/
theorem c4_assert_on_resume_inconsistency (r T b : Nat) (h : T < r) :
    (∃ e, slice_blocks r (some T) (some b) = .error e) ∧
      slice_blocks r (some T) none = .ok [(0, some ((T : Int) - 1))] := by
  refine ⟨⟨"AssertionError: start greater than total_size", ?_⟩, rfl⟩
  simp only [slice_blocks]
  rw [if_neg (by omega)]

/-- Witness for C4 (amended) at `r = 5`, `T = 3`, `b = 7`. -/
theorem c4_assert_on_resume_inconsistency_witness :
    (3 : Nat) < 5 ∧
      ((∃ e, slice_blocks 5 (some 3) (some 7) = .error e) ∧
        slice_blocks 5 (some 3) none = .ok [(0, some ((3 : Int) - 1))]) :=
  ⟨by omega, c4_assert_on_resume_inconsistency 5 3 7 (by omega)⟩

/-- C5: evaluating the code at the failing input `r = 0`, `T = 5`,
`blockSize` null: the returned plan is the single block `(0, 4)`, and under
the `(start, size)` block format the function itself documents (and which
every other branch uses), that block covers only the 4 byte offsets
`[0, 1, 2, 3]` of the 5-byte file — the final byte is never planned. -/
theorem c5_null_block_size_misses_last_byte :
    slice_blocks 0 (some 5) none = .ok [(0, some 4)] ∧
      coveredBytes [(0, some 4)] = [0, 1, 2, 3] ∧
      List.range' 0 5 = [0, 1, 2, 3, 4] :=
  ⟨rfl, rfl, rfl⟩

example : slice_blocks 0 (some 2500000) (some 1000000) =
    .ok [(0, some 1000000), (1000000, some 1000000), (2000000, some 500000)] := rfl

example : slice_blocks 3 (some 3) (some 2) = .ok [] := rfl

example : slice_blocks 1 (some 6) (some 2) = .ok [(1, some 2), (3, some 2), (5, some 1)] := rfl

/-- `VideoUrlMeta` from `yutto/_typing.py`, restricted to the fields the
downloader reads. -/
structure VideoUrlMeta where
  codec : String
  width : Nat
  height : Nat
  quality : Nat
  url : String
  mirrors : List String
deriving Repr, DecidableEq

/-- `AudioUrlMeta` from `yutto/_typing.py`, restricted to the fields the
downloader reads. -/
structure AudioUrlMeta where
  codec : String
  quality : Nat
  url : String
  mirrors : List String
deriving Repr, DecidableEq

/-- `DownloaderOptions` from `yutto/_typing.py`, restricted to the fields
the downloader reads. -/
structure DownloaderOptions where
  require_video : Bool
  require_audio : Bool
  video_save_codec : String
  audio_save_codec : String
  output_format : String
  output_format_audio_only : String
  overwrite : Bool
  block_size : Option Nat
  num_workers : Nat
deriving Repr, DecidableEq

/-- The `vtag` computation of `merge_video_and_audio`
(downloader.py lines 152-156), evaluated on the options as passed in,
before any save-codec rewriting. -/
def compute_vtag (video : Option VideoUrlMeta) (options : DownloaderOptions) :
    Option String :=
  if options.video_save_codec == "hevc" ||
      (options.video_save_codec == "copy" &&
        (match video with | some v => v.codec == "hevc" | none => false)) then
    some "hvc1"
  else
    none

/-- The save-codec rewriting of `merge_video_and_audio`
(downloader.py lines 158-161): a stream whose source codec equals the
requested save codec gets its directive replaced by "copy", mutating the
options record. -/
def rewrite_save_codecs (video : Option VideoUrlMeta) (audio : Option AudioUrlMeta)
    (options : DownloaderOptions) : DownloaderOptions :=
  let options1 :=
    if (match video with | some v => v.codec == options.video_save_codec | none => false) then
      { options with video_save_codec := "copy" }
    else
      options
  if (match audio with | some a => a.codec == options1.audio_save_codec | none => false) then
    { options1 with audio_save_codec := "copy" }
  else
    options1

/-- The `args_list` of `merge_video_and_audio` (downloader.py lines
163-173): a list of argument fragments, later concatenated. -/
def merge_args_list (video : Option VideoUrlMeta) (video_path : String)
    (audio : Option AudioUrlMeta) (audio_path : String) (output_path : String)
    (options : DownloaderOptions) (vtag : Option String) (cpu_count : Nat) :
    List (List String) :=
  [ if video.isSome then ["-i", video_path] else [],
    if audio.isSome then ["-i", audio_path] else [],
    if video.isSome then ["-vcodec", options.video_save_codec] else [],
    if audio.isSome then ["-acodec", options.audio_save_codec] else [],
    ["-strict", "unofficial"],
    (match vtag with | some t => ["-tag:v", t] | none => []),
    ["-threads", toString cpu_count],
    ["-y", output_path] ]

/-- Python `functools.reduce(lambda prev, cur: prev + cur, l)` on a list of
lists (the lists concatenated left to right). -/
def py_reduce_concat (l : List (List String)) : List String :=
  l.foldl (fun prev cur => prev ++ cur) []

/-- Observable result of `merge_video_and_audio`: the single argument
vector handed to `ffmpeg.exec`, the (mutated) options record, and which
temporary stream files were unlinked afterwards. -/
structure MergeResult where
  ffmpeg_args : List String
  options : DownloaderOptions
  video_unlinked : Bool
  audio_unlinked : Bool
deriving Repr, DecidableEq

/-- `merge_video_and_audio` from downloader.py (lines 136-181): compute the
Apple-compatibility tag from the incoming options, rewrite matching save
codecs to "copy" (this mutates the caller's options record), build the
ffmpeg argument vector by reducing `args_list`, invoke ffmpeg once, then
unlink the temporary stream files that exist. -/
def merge_video_and_audio (video : Option VideoUrlMeta) (video_path : String)
    (audio : Option AudioUrlMeta) (audio_path : String) (output_path : String)
    (options : DownloaderOptions) (cpu_count : Nat) : MergeResult :=
  let vtag := compute_vtag video options
  let options := rewrite_save_codecs video audio options
  { ffmpeg_args := py_reduce_concat
      (merge_args_list video video_path audio audio_path output_path options vtag cpu_count),
    options := options,
    video_unlinked := video.isSome,
    audio_unlinked := audio.isSome }

/-- The reduced ffmpeg argument vector, written as the ordered
concatenation of its eight fragments. -/
theorem merge_args_eq (video : Option VideoUrlMeta) (vp : String)
    (audio : Option AudioUrlMeta) (ap op : String) (opts : DownloaderOptions)
    (cpu : Nat) :
    (merge_video_and_audio video vp audio ap op opts cpu).ffmpeg_args =
      (if video.isSome then ["-i", vp] else []) ++
      (if audio.isSome then ["-i", ap] else []) ++
      (if video.isSome then
        ["-vcodec", (rewrite_save_codecs video audio opts).video_save_codec] else []) ++
      (if audio.isSome then
        ["-acodec", (rewrite_save_codecs video audio opts).audio_save_codec] else []) ++
      ["-strict", "unofficial"] ++
      (match compute_vtag video opts with | some t => ["-tag:v", t] | none => []) ++
      ["-threads", toString cpu] ++
      ["-y", op] := by
  simp [merge_video_and_audio, py_reduce_concat, merge_args_list, List.append_assoc]

/-- A concrete AVC video stream. -/
def vAvc : VideoUrlMeta :=
  { codec := "avc", width := 1920, height := 1080, quality := 80,
    url := "http://v.example/main", mirrors := ["http://v.example/mirror"] }

/-- A concrete HEVC video stream. -/
def vHevc : VideoUrlMeta :=
  { codec := "hevc", width := 1920, height := 1080, quality := 80,
    url := "http://v.example/main", mirrors := [] }

/-- A concrete FLAC audio stream. -/
def aFlac : AudioUrlMeta :=
  { codec := "fLaC", quality := 30251, url := "http://a.example/main", mirrors := [] }

/-- Concrete options requesting the HEVC save codec. -/
def optsHevc : DownloaderOptions :=
  { require_video := true, require_audio := true,
    video_save_codec := "hevc", audio_save_codec := "mp4a",
    output_format := "infer", output_format_audio_only := "infer",
    overwrite := false, block_size := some 1000000, num_workers := 8 }

/-- The video directive after the rewrite: `copy` exactly when the selected
video's source codec equals the requested save codec. -/
theorem rewrite_save_codecs_video (video : Option VideoUrlMeta)
    (audio : Option AudioUrlMeta) (opts : DownloaderOptions) :
    (rewrite_save_codecs video audio opts).video_save_codec =
      (match video with
       | some v => if v.codec = opts.video_save_codec then "copy" else opts.video_save_codec
       | none => opts.video_save_codec) := by
  rcases video with _ | v <;> rcases audio with _ | a
  · rfl
  · by_cases ha : a.codec = opts.audio_save_codec <;> simp [rewrite_save_codecs, ha]
  · by_cases hc : v.codec = opts.video_save_codec <;> simp [rewrite_save_codecs, hc]
  · by_cases hc : v.codec = opts.video_save_codec <;>
      by_cases ha : a.codec = opts.audio_save_codec <;>
      simp [rewrite_save_codecs, hc, ha]

/-- The audio directive after the rewrite: `copy` exactly when the selected
audio's source codec equals the requested save codec. -/
theorem rewrite_save_codecs_audio (video : Option VideoUrlMeta)
    (audio : Option AudioUrlMeta) (opts : DownloaderOptions) :
    (rewrite_save_codecs video audio opts).audio_save_codec =
      (match audio with
       | some a => if a.codec = opts.audio_save_codec then "copy" else opts.audio_save_codec
       | none => opts.audio_save_codec) := by
  rcases video with _ | v <;> rcases audio with _ | a
  · rfl
  · by_cases ha : a.codec = opts.audio_save_codec <;> simp [rewrite_save_codecs, ha]
  · by_cases hc : v.codec = opts.video_save_codec <;> simp [rewrite_save_codecs, hc]
  · by_cases hc : v.codec = opts.video_save_codec <;>
      by_cases ha : a.codec = opts.audio_save_codec <;>
      simp [rewrite_save_codecs, hc, ha]

/-- C2 counterexample: with source codec `avc` and requested save codec
`hevc`, the directive does remain a transcode (`hevc`), but the Apple
compatibility tag IS applied (the code tags whenever the requested save
codec is `hevc`, regardless of the source codec), so the claim's
"no tag is applied" half is false at this input. -/
theorem c2_avc_to_hevc_still_tagged :
    (merge_video_and_audio (some vAvc) "v.m4s" none "a.m4s" "o.mp4"
        optsHevc 4).options.video_save_codec = "hevc" ∧
      "-tag:v" ∈ (merge_video_and_audio (some vAvc) "v.m4s" none "a.m4s" "o.mp4"
        optsHevc 4).ffmpeg_args := by
  constructor
  · rfl
  · rw [merge_args_eq]
    simp [compute_vtag, optsHevc]

/-- C2 (amended): when the requested video save codec is `hevc`, the Apple
compatibility tag `-tag:v hvc1` is always applied; the directive becomes
`copy` when the source codec is also `hevc` and stays the transcode `hevc`
when the source codec differs. -/
theorem c2_hevc_copy_and_tag (v : VideoUrlMeta) (audio : Option AudioUrlMeta)
    (vp ap op : String) (opts : DownloaderOptions) (cpu : Nat)
    (hreq : opts.video_save_codec = "hevc") :
    ("-tag:v" ∈ (merge_video_and_audio (some v) vp audio ap op opts cpu).ffmpeg_args ∧
      "hvc1" ∈ (merge_video_and_audio (some v) vp audio ap op opts cpu).ffmpeg_args) ∧
    (v.codec = "hevc" →
      (merge_video_and_audio (some v) vp audio ap op opts cpu).options.video_save_codec =
        "copy") ∧
    (v.codec ≠ "hevc" →
      (merge_video_and_audio (some v) vp audio ap op opts cpu).options.video_save_codec =
        "hevc") := by
  have htag : compute_vtag (some v) opts = some "hvc1" := by
    simp [compute_vtag, hreq]
  have hvfield : (merge_video_and_audio (some v) vp audio ap op opts cpu).options.video_save_codec =
      (rewrite_save_codecs (some v) audio opts).video_save_codec := rfl
  refine ⟨?_, ?_, ?_⟩
  · rw [merge_args_eq, htag]
    constructor <;> simp
  · intro hv
    rw [hvfield, rewrite_save_codecs_video]
    simp [hv, hreq]
  · intro hv
    rw [hvfield, rewrite_save_codecs_video]
    rw [hreq]
    simp [hv]

/-- Witness for C2 (amended) at a concrete HEVC source stream. -/
theorem c2_hevc_copy_and_tag_witness :
    optsHevc.video_save_codec = "hevc" ∧
      (merge_video_and_audio (some vHevc) "v.m4s" (some aFlac) "a.m4s" "o.mp4"
        optsHevc 4).options.video_save_codec = "copy" :=
  ⟨rfl, ((c2_hevc_copy_and_tag vHevc (some aFlac) "v.m4s" "a.m4s" "o.mp4"
      optsHevc 4 rfl).2.1 rfl)⟩

/-- C6: for every selected stream, a source codec equal to the requested
save codec rewrites that stream's directive to `copy`; a differing source
codec leaves the requested save codec unchanged (and an absent stream
leaves its directive untouched). -/
theorem c6_copy_rewrite (video : Option VideoUrlMeta) (audio : Option AudioUrlMeta)
    (vp ap op : String) (opts : DownloaderOptions) (cpu : Nat) :
    (∀ v, video = some v →
      (v.codec = opts.video_save_codec →
        (merge_video_and_audio video vp audio ap op opts cpu).options.video_save_codec =
          "copy") ∧
      (v.codec ≠ opts.video_save_codec →
        (merge_video_and_audio video vp audio ap op opts cpu).options.video_save_codec =
          opts.video_save_codec)) ∧
    (∀ a, audio = some a →
      (a.codec = opts.audio_save_codec →
        (merge_video_and_audio video vp audio ap op opts cpu).options.audio_save_codec =
          "copy") ∧
      (a.codec ≠ opts.audio_save_codec →
        (merge_video_and_audio video vp audio ap op opts cpu).options.audio_save_codec =
          opts.audio_save_codec)) := by
  have hv : (merge_video_and_audio video vp audio ap op opts cpu).options =
      rewrite_save_codecs video audio opts := rfl
  constructor
  · rintro v rfl
    rw [hv, rewrite_save_codecs_video]
    constructor
    · intro hc
      simp [hc]
    · intro hc
      simp [hc]
  · rintro a rfl
    rw [hv, rewrite_save_codecs_audio]
    constructor
    · intro hc
      simp [hc]
    · intro hc
      simp [hc]

/-- Witness for C6 at concrete matching and non-matching streams. -/
theorem c6_copy_rewrite_witness :
    (merge_video_and_audio (some vHevc) "v.m4s" (some aFlac) "a.m4s" "o.mp4"
        optsHevc 4).options.video_save_codec = "copy" ∧
      (merge_video_and_audio (some vHevc) "v.m4s" (some aFlac) "a.m4s" "o.mp4"
        optsHevc 4).options.audio_save_codec = "mp4a" :=
  ⟨((c6_copy_rewrite (some vHevc) (some aFlac) "v.m4s" "a.m4s" "o.mp4" optsHevc 4).1
      vHevc rfl).1 rfl,
    ((c6_copy_rewrite (some vHevc) (some aFlac) "v.m4s" "a.m4s" "o.mp4" optsHevc 4).2
      aFlac rfl).2 (by simp [aFlac, optsHevc])⟩

/-- A subtitle payload (`episode_data["subtitles"]` entries): language plus
opaque lines. -/
structure SubtitleData where
  lang : String
  lines : List String
deriving Repr, DecidableEq

/-- A danmaku payload (`episode_data["danmaku"]`): opaque data items plus
the save type. -/
structure DanmakuData where
  data : List String
  save_type : String
deriving Repr, DecidableEq

/-- `EpisodeData` from `yutto/_typing.py`, restricted to the fields
`start_downloader` reads.  The metadata payload is opaque. -/
structure EpisodeData where
  subtitles : List SubtitleData
  danmaku : DanmakuData
  metadata : Option String
  output_dir : String
  tmp_dir : String
  filename : String
deriving Repr, DecidableEq

/-- `Path.joinpath` on string paths. -/
def joinpath (dir name : String) : String :=
  dir ++ "/" ++ name

/-- Observable side effects of one `start_downloader` run, in program
order.  `get_size` and `fetch_block` are the network requests; `exec_ffmpeg`
is the muxer invocation. -/
inductive Event where
  | mkdir (path : String)
  | write_subtitle (lang : String) (path : String)
  | write_danmaku (path : String)
  | write_metadata (path : String)
  | unlink_output (path : String)
  | open_buffer (path : String) (overwrite : Bool)
  | get_size (url : String)
  | fetch_block (url : String) (offset : Nat) (size : Option Int)
  | close_buffer (path : String)
  | exec_ffmpeg (args : List String)
  | unlink_temp (path : String)
deriving Repr, DecidableEq

/-- Whether an event is a network request (a size probe or a range fetch). -/
def Event.is_network : Event → Bool
  | .get_size _ => true
  | .fetch_block _ _ _ => true
  | _ => false

/-- Whether an event is an invocation of the external muxer. -/
def Event.is_mux : Event → Bool
  | .exec_ffmpeg _ => true
  | _ => false

/-- `xmerge` from `yutto/utils/funcutils.py` on two task lists.
Modelled from the spec: the source of `xmerge` is not under `src/`; the
spec describes it as a round-robin merge of the two ordered task queues
(one element from each queue in turn, leftovers appended). -/
def xmerge {α : Type} : List α → List α → List α
  | [], ys => ys
  | x :: xs, [] => x :: xs
  | x :: xs, y :: ys => x :: y :: xmerge xs ys

/-- `download_video_and_audio` from downloader.py (lines 90-133), as the
list of observable events it performs.  The remote sizes reported by
`Fetcher.get_size` (`vsize`, `asize`) and the resume offsets of the two
buffers (`vwritten`, `awritten`, the `written_size` of each
`AsyncFileBuffer` after opening) are inputs from the outside world.  A
`slice_blocks` assertion failure propagates as the Python exception
does. -/
def download_video_and_audio (video : Option VideoUrlMeta) (video_path : String)
    (audio : Option AudioUrlMeta) (audio_path : String) (options : DownloaderOptions)
    (vwritten : Nat) (vsize : Option Nat) (awritten : Nat) (asize : Option Nat) :
    Except String (List Event) := do
  let (vpre, vfetch) ←
    match video with
    | some v => do
        let blocks ← slice_blocks vwritten vsize options.block_size
        pure ([Event.open_buffer video_path options.overwrite, Event.get_size v.url],
          blocks.map (fun p => Event.fetch_block v.url p.1 p.2))
    | none => pure ([], [])
  let (apre, afetch) ←
    match audio with
    | some a => do
        let blocks ← slice_blocks awritten asize options.block_size
        pure ([Event.open_buffer audio_path options.overwrite, Event.get_size a.url],
          blocks.map (fun p => Event.fetch_block a.url p.1 p.2))
    | none => pure ([], [])
  let closes :=
    (if video.isSome then [Event.close_buffer video_path] else []) ++
    (if audio.isSome then [Event.close_buffer audio_path] else [])
  pure (vpre ++ apre ++ xmerge vfetch afetch ++ closes)

/-- The output container extension chosen by `start_downloader`
(downloader.py lines 221-233), starting from the default `.mp4`. -/
def output_format_of (will_download_video will_download_audio : Bool)
    (audio : Option AudioUrlMeta) (options : DownloaderOptions) : String :=
  if !will_download_video then
    if options.output_format_audio_only ≠ "infer" then
      "." ++ options.output_format_audio_only
    else if will_download_audio &&
        (match audio with | some a => a.codec == "fLaC" | none => false) then
      ".flac"
    else
      ".aac"
  else
    if options.output_format ≠ "infer" then
      "." ++ options.output_format
    else if will_download_audio &&
        (match audio with | some a => a.codec == "fLaC" | none => false) then
      ".mkv"
    else
      ".mp4"

/-- The events `start_downloader` performs before it looks at the existing
output file: temp/output directory creation and the subtitle, danmaku and
metadata (NFO) writes (downloader.py lines 203, 220, 237-259). -/
def ancillary_events (episode_data : EpisodeData) (output_path : String) : List Event :=
  [Event.mkdir episode_data.tmp_dir] ++
  [Event.mkdir episode_data.output_dir] ++
  (episode_data.subtitles.map (fun s => Event.write_subtitle s.lang output_path)) ++
  (if episode_data.danmaku.data ≠ [] then [Event.write_danmaku output_path] else []) ++
  (match episode_data.metadata with
   | some _ => [Event.write_metadata output_path]
   | none => [])

/-- Terminal outcome of one `start_downloader` run. -/
inductive Outcome where
  | skipped
  | nothingToDo
  | failed (msg : String)
  | done
deriving Repr, DecidableEq

/-- Result of one `start_downloader` run: its terminal outcome, its event
trace in program order, and the options record as the caller sees it
afterwards (the record is mutated in place by `merge_video_and_audio`). -/
structure DownloadResult where
  outcome : Outcome
  events : List Event
  options : DownloaderOptions
deriving Repr, DecidableEq

/-- `start_downloader` from downloader.py (lines 184-280).  The results of
`select_video` / `select_audio` (the selector module is an external
collaborator) are passed in as `video` / `audio`; `output_exists` is
whether the target output file exists; `vwritten`, `vsize`, `awritten`,
`asize` are the world inputs of the download phase. -/
def start_downloader (episode_data : EpisodeData) (options : DownloaderOptions)
    (video : Option VideoUrlMeta) (audio : Option AudioUrlMeta)
    (output_exists : Bool) (vwritten : Nat) (vsize : Option Nat)
    (awritten : Nat) (asize : Option Nat) (cpu_count : Nat) : DownloadResult :=
  let filename := episode_data.filename
  let video_path := joinpath episode_data.tmp_dir (filename ++ "_video.m4s")
  let audio_path := joinpath episode_data.tmp_dir (filename ++ "_audio.m4s")
  let will_download_video := video.isSome && options.require_video
  let will_download_audio := audio.isSome && options.require_audio
  let ofmt := output_format_of will_download_video will_download_audio audio options
  let output_path := joinpath episode_data.output_dir (filename ++ ofmt)
  let pre := ancillary_events episode_data output_path
  if output_exists && !options.overwrite then
    { outcome := .skipped, events := pre, options := options }
  else
    let pre := pre ++ (if output_exists then [Event.unlink_output output_path] else [])
    if !(will_download_audio || will_download_video) then
      { outcome := .nothingToDo, events := pre, options := options }
    else
      let video := if will_download_video then video else none
      let audio := if will_download_audio then audio else none
      match download_video_and_audio video video_path audio audio_path options
          vwritten vsize awritten asize with
      | .error e => { outcome := .failed e, events := pre, options := options }
      | .ok dl =>
        let m := merge_video_and_audio video video_path audio audio_path output_path
          options cpu_count
        let unlinks :=
          (if video.isSome then [Event.unlink_temp video_path] else []) ++
          (if audio.isSome then [Event.unlink_temp audio_path] else [])
        { outcome := .done,
          events := pre ++ dl ++ [Event.exec_ffmpeg m.ffmpeg_args] ++ unlinks,
          options := m.options }

/-- With unknown remote sizes, the download phase for two selected streams
performs exactly: open video buffer, probe video size, open audio buffer,
probe audio size, the two interleaved unbounded fetches, and the two buffer
closes. -/
theorem download_both_unknown_size (v : VideoUrlMeta) (a : AudioUrlMeta)
    (vp ap : String) (options : DownloaderOptions) (vw aw : Nat) :
    download_video_and_audio (some v) vp (some a) ap options vw none aw none =
      .ok [Event.open_buffer vp options.overwrite, Event.get_size v.url,
        Event.open_buffer ap options.overwrite, Event.get_size a.url,
        Event.fetch_block v.url 0 none, Event.fetch_block a.url 0 none,
        Event.close_buffer vp, Event.close_buffer ap] := rfl

/-- A full program-order trace for a run with both streams selected and
required, no pre-existing output file and unknown remote sizes. -/
theorem start_downloader_done_run (ep : EpisodeData) (options : DownloaderOptions)
    (v : VideoUrlMeta) (a : AudioUrlMeta) (vw aw cpu : Nat)
    (hrv : options.require_video = true) (hra : options.require_audio = true) :
    start_downloader ep options (some v) (some a) false vw none aw none cpu =
      { outcome := .done,
        events :=
          ancillary_events ep (joinpath ep.output_dir (ep.filename ++
            output_format_of true true (some a) options)) ++
          [Event.open_buffer (joinpath ep.tmp_dir (ep.filename ++ "_video.m4s"))
              options.overwrite,
            Event.get_size v.url,
            Event.open_buffer (joinpath ep.tmp_dir (ep.filename ++ "_audio.m4s"))
              options.overwrite,
            Event.get_size a.url,
            Event.fetch_block v.url 0 none,
            Event.fetch_block a.url 0 none,
            Event.close_buffer (joinpath ep.tmp_dir (ep.filename ++ "_video.m4s")),
            Event.close_buffer (joinpath ep.tmp_dir (ep.filename ++ "_audio.m4s"))] ++
          [Event.exec_ffmpeg ((merge_video_and_audio (some v)
              (joinpath ep.tmp_dir (ep.filename ++ "_video.m4s")) (some a)
              (joinpath ep.tmp_dir (ep.filename ++ "_audio.m4s"))
              (joinpath ep.output_dir (ep.filename ++
                output_format_of true true (some a) options)) options cpu).ffmpeg_args)] ++
          [Event.unlink_temp (joinpath ep.tmp_dir (ep.filename ++ "_video.m4s")),
            Event.unlink_temp (joinpath ep.tmp_dir (ep.filename ++ "_audio.m4s"))],
        options := rewrite_save_codecs (some v) (some a) options } := by
  simp only [start_downloader, hrv, hra, download_both_unknown_size, Option.isSome_some,
    Bool.and_true, Bool.true_and, Bool.and_false, Bool.false_and, Bool.or_self,
    Bool.not_true, Bool.not_false, if_false, if_true, List.append_nil,
    Bool.false_eq_true, ite_false, ite_true]
  rfl

/-- The output extension as the amended claim words it: with video, the
user-specified extension when one is given, else `mkv` when the downloaded
audio is FLAC, else `mp4`; audio-only, the user-specified audio-only
extension when given, else `flac` for FLAC audio, else `aac`. -/
def output_ext_claim (wdv wda : Bool) (audio : Option AudioUrlMeta)
    (options : DownloaderOptions) : String :=
  if wdv then
    if options.output_format ≠ "infer" then "." ++ options.output_format
    else if wda && (match audio with | some a => a.codec == "fLaC" | none => false) then
      ".mkv"
    else ".mp4"
  else
    if options.output_format_audio_only ≠ "infer" then
      "." ++ options.output_format_audio_only
    else if wda && (match audio with | some a => a.codec == "fLaC" | none => false) then
      ".flac"
    else ".aac"

/-- C3 counterexample: with video to be downloaded, `output_format` left at
`infer` and FLAC audio, the chosen extension is `.mkv`, not `.mp4`, so
"mp4 whenever video will be downloaded" is false at this input. -/
theorem c3_flac_audio_gives_mkv :
    output_format_of true true (some aFlac) optsHevc = ".mkv" ∧
      (".mkv" : String) ≠ ".mp4" := by
  constructor
  · rfl
  · decide

/-- C3 (amended): the per-job temp files are `<tmp_dir>/<filename>_video.m4s`
and `<tmp_dir>/<filename>_audio.m4s`, the final output is
`<output_dir>/<filename><ext>`, and `<ext>` follows the amended rule
(`output_ext_claim`): video present — user-specified extension, else `.mkv`
for FLAC audio, else `.mp4`; audio-only — user-specified, else `.flac` for
FLAC audio, else `.aac`.  Verified on the event trace of a run downloading
both streams. -/
theorem c3_filesystem_layout (ep : EpisodeData) (options : DownloaderOptions)
    (v : VideoUrlMeta) (a : AudioUrlMeta) (vw aw cpu : Nat)
    (hrv : options.require_video = true) (hra : options.require_audio = true) :
    (∀ wdv wda audio opt,
      output_format_of wdv wda audio opt = output_ext_claim wdv wda audio opt) ∧
    Event.open_buffer (ep.tmp_dir ++ "/" ++ (ep.filename ++ "_video.m4s"))
        options.overwrite ∈
      (start_downloader ep options (some v) (some a) false vw none aw none cpu).events ∧
    Event.open_buffer (ep.tmp_dir ++ "/" ++ (ep.filename ++ "_audio.m4s"))
        options.overwrite ∈
      (start_downloader ep options (some v) (some a) false vw none aw none cpu).events ∧
    (∃ args, Event.exec_ffmpeg args ∈
        (start_downloader ep options (some v) (some a) false vw none aw none cpu).events ∧
      args.getLast? = some (ep.output_dir ++ "/" ++
        (ep.filename ++ output_ext_claim true true (some a) options))) := by
  have hext : ∀ wdv wda audio opt,
      output_format_of wdv wda audio opt = output_ext_claim wdv wda audio opt := by
    intro wdv wda audio opt
    cases wdv <;> rfl
  refine ⟨hext, ?_, ?_, ?_⟩
  · rw [start_downloader_done_run ep options v a vw aw cpu hrv hra]
    simp [joinpath]
  · rw [start_downloader_done_run ep options v a vw aw cpu hrv hra]
    simp [joinpath]
  · refine ⟨(merge_video_and_audio (some v)
      (joinpath ep.tmp_dir (ep.filename ++ "_video.m4s")) (some a)
      (joinpath ep.tmp_dir (ep.filename ++ "_audio.m4s"))
      (joinpath ep.output_dir (ep.filename ++
        output_format_of true true (some a) options)) options cpu).ffmpeg_args, ?_, ?_⟩
    · rw [start_downloader_done_run ep options v a vw aw cpu hrv hra]
      simp
    · rw [merge_args_eq]
      rw [show (joinpath ep.output_dir (ep.filename ++
          output_format_of true true (some a) options)) =
        ep.output_dir ++ "/" ++ (ep.filename ++
          output_ext_claim true true (some a) options) by
        rw [hext]
        rfl]
      rcases hvt : compute_vtag (some v) options with _ | t <;> simp [hvt]

/-- Witness for C3 (amended) at a concrete episode. -/
theorem c3_filesystem_layout_witness :
    optsHevc.require_video = true ∧ optsHevc.require_audio = true ∧
      Event.open_buffer ("tmp" ++ "/" ++ ("ep1" ++ "_video.m4s")) optsHevc.overwrite ∈
        (start_downloader
          { subtitles := [], danmaku := { data := [], save_type := "ass" },
            metadata := none, output_dir := "out", tmp_dir := "tmp", filename := "ep1" }
          optsHevc (some vHevc) (some aFlac) false 0 none 0 none 4).events :=
  ⟨rfl, rfl,
    (c3_filesystem_layout
      { subtitles := [], danmaku := { data := [], save_type := "ass" },
        metadata := none, output_dir := "out", tmp_dir := "tmp", filename := "ep1" }
      optsHevc vHevc aFlac 0 0 4 rfl rfl).2.1⟩

/-- Every event performed before the output-file existence check is a
directory creation or an ancillary-file write: none is a network request
and none is a muxer invocation. -/
theorem ancillary_no_net (ep : EpisodeData) (op : String) :
    ∀ e ∈ ancillary_events ep op, e.is_network = false ∧ e.is_mux = false := by
  intro e he
  unfold ancillary_events at he
  rcases List.mem_append.mp he with h | h
  · rcases List.mem_append.mp h with h | h
    · rcases List.mem_append.mp h with h | h
      · rcases List.mem_append.mp h with h | h
        · simp at h
          subst h
          exact ⟨rfl, rfl⟩
        · simp at h
          subst h
          exact ⟨rfl, rfl⟩
      · rcases List.mem_map.mp h with ⟨s, _, rfl⟩
        exact ⟨rfl, rfl⟩
    · split at h
      · simp at h
        subst h
        exact ⟨rfl, rfl⟩
      · simp at h
  · split at h
    · simp at h
      subst h
      exact ⟨rfl, rfl⟩
    · simp at h

/-- A run with an existing output file and `overwrite = false` stops right
after the ancillary writes. -/
theorem start_downloader_skip_run (ep : EpisodeData) (options : DownloaderOptions)
    (video : Option VideoUrlMeta) (audio : Option AudioUrlMeta)
    (vw aw cpu : Nat) (vs asz : Option Nat) (hov : options.overwrite = false) :
    start_downloader ep options video audio true vw vs aw asz cpu =
      { outcome := .skipped,
        events := ancillary_events ep (joinpath ep.output_dir (ep.filename ++
          output_format_of (video.isSome && options.require_video)
            (audio.isSome && options.require_audio) audio options)),
        options := options } := by
  simp only [start_downloader, hov, Bool.not_false, Bool.and_true, if_true, ite_true]

/-- C7: if the target output file exists and `overwrite` is false, the run
terminates as `skipped` having performed no network request and no muxer
invocation; if it exists and `overwrite` is true, the run deletes the
output file and does not terminate as `skipped`. -/
theorem c7_existing_output (ep : EpisodeData) (options : DownloaderOptions)
    (video : Option VideoUrlMeta) (audio : Option AudioUrlMeta)
    (vw aw cpu : Nat) (vs asz : Option Nat) :
    (options.overwrite = false →
      (start_downloader ep options video audio true vw vs aw asz cpu).outcome =
        Outcome.skipped ∧
      ∀ e ∈ (start_downloader ep options video audio true vw vs aw asz cpu).events,
        e.is_network = false ∧ e.is_mux = false) ∧
    (options.overwrite = true →
      (start_downloader ep options video audio true vw vs aw asz cpu).outcome ≠
        Outcome.skipped ∧
      Event.unlink_output (joinpath ep.output_dir (ep.filename ++
        output_format_of (video.isSome && options.require_video)
          (audio.isSome && options.require_audio) audio options)) ∈
        (start_downloader ep options video audio true vw vs aw asz cpu).events) := by
  constructor
  · intro hov
    rw [start_downloader_skip_run ep options video audio vw aw cpu vs asz hov]
    exact ⟨rfl, ancillary_no_net ep _⟩
  · intro hov
    simp only [start_downloader, hov, Bool.not_true, Bool.and_false]
    rw [if_neg (by simp)]
    split
    · exact ⟨by simp, by simp⟩
    · split
      · exact ⟨by simp, by simp⟩
      · refine ⟨by simp, ?_⟩
        apply List.mem_append_left
        apply List.mem_append_left
        apply List.mem_append_left
        simp

/-- Witness for C7 at a concrete episode with an existing output file. -/
theorem c7_existing_output_witness :
    optsHevc.overwrite = false ∧
      (start_downloader
        { subtitles := [], danmaku := { data := [], save_type := "ass" },
          metadata := none, output_dir := "out", tmp_dir := "tmp", filename := "ep1" }
        optsHevc (some vHevc) (some aFlac) true 0 none 0 none 4).outcome =
        Outcome.skipped :=
  ⟨rfl,
    ((c7_existing_output
      { subtitles := [], danmaku := { data := [], save_type := "ass" },
        metadata := none, output_dir := "out", tmp_dir := "tmp", filename := "ep1" }
      optsHevc (some vHevc) (some aFlac) 0 0 4 none none).1 rfl).1⟩

/-- The ancillary phase performs no muxer invocation. -/
theorem ancillary_filter_mux (ep : EpisodeData) (op : String) :
    (ancillary_events ep op).filter Event.is_mux = [] :=
  List.filter_eq_nil_iff.mpr (fun e he => by
    rw [(ancillary_no_net ep op e he).2]
    simp)

/-- C8: in a run that merges both streams, the muxer is invoked exactly
once, and its argument vector is, in order: one `-i` input per present
stream (video before audio), one codec directive per present stream
(`-vcodec` then `-acodec`), the global `-strict unofficial` flag, the
optional `-tag:v` flag, the `-threads` count, and `-y` followed by the
output path. -/
theorem c8_muxer_invocation (ep : EpisodeData) (options : DownloaderOptions)
    (v : VideoUrlMeta) (a : AudioUrlMeta) (vw aw cpu : Nat)
    (hrv : options.require_video = true) (hra : options.require_audio = true) :
    ((start_downloader ep options (some v) (some a) false vw none aw none cpu).events.filter
      Event.is_mux).length = 1 ∧
    Event.exec_ffmpeg (
      ["-i", joinpath ep.tmp_dir (ep.filename ++ "_video.m4s")] ++
      ["-i", joinpath ep.tmp_dir (ep.filename ++ "_audio.m4s")] ++
      ["-vcodec", (rewrite_save_codecs (some v) (some a) options).video_save_codec] ++
      ["-acodec", (rewrite_save_codecs (some v) (some a) options).audio_save_codec] ++
      ["-strict", "unofficial"] ++
      (match compute_vtag (some v) options with | some t => ["-tag:v", t] | none => []) ++
      ["-threads", toString cpu] ++
      ["-y", joinpath ep.output_dir (ep.filename ++
        output_format_of true true (some a) options)]) ∈
      (start_downloader ep options (some v) (some a) false vw none aw none cpu).events := by
  rw [start_downloader_done_run ep options v a vw aw cpu hrv hra]
  constructor
  · simp only [List.filter_append, ancillary_filter_mux, List.length_append]
    rfl
  · rw [merge_args_eq]
    simp

/-- Witness for C8 at a concrete episode. -/
theorem c8_muxer_invocation_witness :
    optsHevc.require_video = true ∧
      ((start_downloader
        { subtitles := [], danmaku := { data := [], save_type := "ass" },
          metadata := none, output_dir := "out", tmp_dir := "tmp", filename := "ep1" }
        optsHevc (some vHevc) (some aFlac) false 0 none 0 none 4).events.filter
          Event.is_mux).length = 1 :=
  ⟨rfl,
    (c8_muxer_invocation
      { subtitles := [], danmaku := { data := [], save_type := "ass" },
        metadata := none, output_dir := "out", tmp_dir := "tmp", filename := "ep1" }
      optsHevc vHevc aFlac 0 0 4 rfl rfl).1⟩

/-- C9: `merge_video_and_audio` overwrites the save-codec fields of the
caller's options record with "copy" when the source codecs match, and the
change is visible on the record `start_downloader` leaves behind, so a
later job reusing the same options sees "copy" instead of the originally
requested codec. -/
theorem c9_options_mutated_in_place (ep : EpisodeData) (options : DownloaderOptions)
    (v : VideoUrlMeta) (a : AudioUrlMeta) (vw aw cpu : Nat)
    (hrv : options.require_video = true) (hra : options.require_audio = true)
    (hvc : v.codec = options.video_save_codec)
    (hnc : options.video_save_codec ≠ "copy") :
    (start_downloader ep options (some v) (some a) false vw none aw none cpu).outcome =
      Outcome.done ∧
    (start_downloader ep options (some v) (some a) false vw none aw
      none cpu).options.video_save_codec = "copy" ∧
    (start_downloader ep options (some v) (some a) false vw none aw none cpu).options ≠
      options ∧
    (a.codec = options.audio_save_codec →
      (start_downloader ep options (some v) (some a) false vw none aw
        none cpu).options.audio_save_codec = "copy") := by
  rw [start_downloader_done_run ep options v a vw aw cpu hrv hra]
  refine ⟨rfl, ?_, ?_, ?_⟩
  · show (rewrite_save_codecs (some v) (some a) options).video_save_codec = "copy"
    rw [rewrite_save_codecs_video]
    simp [hvc]
  · show rewrite_save_codecs (some v) (some a) options ≠ options
    intro hecq
    have hfield := congrArg DownloaderOptions.video_save_codec hecq
    rw [rewrite_save_codecs_video] at hfield
    simp only [hvc, if_pos rfl] at hfield
    exact hnc hfield.symm
  · intro hac
    show (rewrite_save_codecs (some v) (some a) options).audio_save_codec = "copy"
    rw [rewrite_save_codecs_audio]
    simp [hac]

/-- Witness for C9 at a concrete episode whose stream codecs match the
requested save codecs. -/
theorem c9_options_mutated_in_place_witness :
    (start_downloader
      { subtitles := [], danmaku := { data := [], save_type := "ass" },
        metadata := none, output_dir := "out", tmp_dir := "tmp", filename := "ep1" }
      optsHevc (some vHevc) (some aFlac) false 0 none 0 none 4).options.video_save_codec =
      "copy" ∧
    (start_downloader
      { subtitles := [], danmaku := { data := [], save_type := "ass" },
        metadata := none, output_dir := "out", tmp_dir := "tmp", filename := "ep1" }
      optsHevc (some vHevc) (some aFlac) false 0 none 0 none 4).options ≠ optsHevc :=
  ⟨(c9_options_mutated_in_place
      { subtitles := [], danmaku := { data := [], save_type := "ass" },
        metadata := none, output_dir := "out", tmp_dir := "tmp", filename := "ep1" }
      optsHevc vHevc aFlac 0 0 4 rfl rfl rfl (by decide)).2.1,
    (c9_options_mutated_in_place
      { subtitles := [], danmaku := { data := [], save_type := "ass" },
        metadata := none, output_dir := "out", tmp_dir := "tmp", filename := "ep1" }
      optsHevc vHevc aFlac 0 0 4 rfl rfl rfl (by decide)).2.2.1⟩

/-- In every run, the event trace starts with the ancillary phase
(directory creation and the subtitle/danmaku/metadata writes). -/
theorem start_downloader_ancillary_first (ep : EpisodeData) (options : DownloaderOptions)
    (video : Option VideoUrlMeta) (audio : Option AudioUrlMeta) (oe : Bool)
    (vw aw cpu : Nat) (vs asz : Option Nat) :
    ∃ rest, (start_downloader ep options video audio oe vw vs aw asz cpu).events =
      ancillary_events ep (joinpath ep.output_dir (ep.filename ++
        output_format_of (video.isSome && options.require_video)
          (audio.isSome && options.require_audio) audio options)) ++ rest := by
  simp only [start_downloader]
  split
  · exact ⟨[], (List.append_nil _).symm⟩
  · split
    · exact ⟨_, rfl⟩
    · split
      · exact ⟨_, rfl⟩
      · exact ⟨_, by rw [List.append_assoc, List.append_assoc, List.append_assoc]⟩

/-- C10: the subtitle, danmaku and metadata (NFO) writes happen before the
output-file existence check and before the anything-to-download check, so
they are present in the trace of every run, whatever its outcome
(including `skipped` and `nothingToDo`). -/
theorem c10_ancillary_always_written (ep : EpisodeData) (options : DownloaderOptions)
    (video : Option VideoUrlMeta) (audio : Option AudioUrlMeta) (oe : Bool)
    (vw aw cpu : Nat) (vs asz : Option Nat) :
    (∃ rest, (start_downloader ep options video audio oe vw vs aw asz cpu).events =
      ancillary_events ep (joinpath ep.output_dir (ep.filename ++
        output_format_of (video.isSome && options.require_video)
          (audio.isSome && options.require_audio) audio options)) ++ rest) ∧
    (∀ s ∈ ep.subtitles,
      Event.write_subtitle s.lang (joinpath ep.output_dir (ep.filename ++
        output_format_of (video.isSome && options.require_video)
          (audio.isSome && options.require_audio) audio options)) ∈
        (start_downloader ep options video audio oe vw vs aw asz cpu).events) ∧
    (ep.danmaku.data ≠ [] →
      Event.write_danmaku (joinpath ep.output_dir (ep.filename ++
        output_format_of (video.isSome && options.require_video)
          (audio.isSome && options.require_audio) audio options)) ∈
        (start_downloader ep options video audio oe vw vs aw asz cpu).events) ∧
    (∀ md, ep.metadata = some md →
      Event.write_metadata (joinpath ep.output_dir (ep.filename ++
        output_format_of (video.isSome && options.require_video)
          (audio.isSome && options.require_audio) audio options)) ∈
        (start_downloader ep options video audio oe vw vs aw asz cpu).events) := by
  obtain ⟨rest, hre⟩ :=
    start_downloader_ancillary_first ep options video audio oe vw aw cpu vs asz
  refine ⟨⟨rest, hre⟩, ?_, ?_, ?_⟩
  · intro s hs
    rw [hre]
    apply List.mem_append_left
    unfold ancillary_events
    apply List.mem_append_left
    apply List.mem_append_left
    apply List.mem_append_right
    exact List.mem_map_of_mem _ hs
  · intro hd
    rw [hre]
    apply List.mem_append_left
    unfold ancillary_events
    apply List.mem_append_left
    apply List.mem_append_right
    rw [if_pos hd]
    simp
  · intro md hmd
    rw [hre]
    apply List.mem_append_left
    unfold ancillary_events
    apply List.mem_append_right
    rw [hmd]
    simp

/-- Witness for C10: a skipped run (output exists, overwrite false) still
has the subtitle, danmaku and metadata writes in its trace. -/
theorem c10_ancillary_always_written_witness :
    Event.write_subtitle "en" (joinpath "out" ("ep1" ++
        output_format_of ((some vHevc).isSome && optsHevc.require_video)
          ((some aFlac).isSome && optsHevc.require_audio) (some aFlac) optsHevc)) ∈
      (start_downloader
        { subtitles := [{ lang := "en", lines := ["l1"] }],
          danmaku := { data := ["d1"], save_type := "ass" },
          metadata := some "nfo", output_dir := "out", tmp_dir := "tmp",
          filename := "ep1" }
        optsHevc (some vHevc) (some aFlac) true 0 none 0 none 4).events :=
  (c10_ancillary_always_written
    { subtitles := [{ lang := "en", lines := ["l1"] }],
      danmaku := { data := ["d1"], save_type := "ass" },
      metadata := some "nfo", output_dir := "out", tmp_dir := "tmp", filename := "ep1" }
    optsHevc (some vHevc) (some aFlac) true 0 0 4 none none).2.1
    { lang := "en", lines := ["l1"] } (by simp)

end Yutto
